import Mathlib

/-!
Verification of the resource-lifecycle layer of the `onestacked/linux` Rust
driver code: the `IoMem` mapped-region constructor/destructor
(`rust/kernel/io/mem.rs`), the platform `ioremap_resource` entry points
(`rust/kernel/platform.rs`), the `Devres` revocable container (modelled from
the specification, its source is not part of the verified tree), and the two
example drivers (`drivers/misc/pushbutton.rs`, `drivers/misc/ledpwm.rs`).

Kernel primitives (`request_mem_region`, `release_mem_region`, `ioremap`,
`iounmap`, `Devres::new`) are C or out-of-tree code; they are modelled as
explicit state transformers on a `MemState`, and each call into them is
recorded as a `KernelEvent` so that the order and presence of side effects
can be reasoned about.
-/

/-- Error codes used by the verified code paths (`EINVAL`, `EBUSY`, `ENOMEM`
from `IoMem::new`, `ENXIO` from the drivers). -/
inductive Errno
  | EINVAL
  | EBUSY
  | ENOMEM
  | ENXIO
  deriving DecidableEq, Repr

open Errno

/-- Read-only view of a hardware resource descriptor
(`rust/kernel/io/resource.rs`): `start()`, `size()` and `name()` are pure
reads of bus-supplied metadata. -/
structure Resource where
  start : Nat
  size : Nat
  name : String
  deriving DecidableEq, Repr

/-- Modelled from the spec: the kernel-global reservation and mapping state
behind `request_mem_region` / `release_mem_region` / `ioremap` / `iounmap`
(C kernel code, not part of the verified tree). `reserved` is the list of
exclusively reserved physical ranges as `(start, size)` pairs, `mapped` the
list of live virtual base addresses. -/
structure MemState where
  reserved : List (Nat × Nat)
  mapped : List Nat
  deriving DecidableEq, Repr

/-- Two physical ranges `[s1, s1+n1)` and `[s2, s2+n2)` overlap. -/
def rangesOverlap (s1 n1 s2 n2 : Nat) : Bool :=
  decide (s1 < s2 + n2) && decide (s2 < s1 + n1)

/-- Modelled from the spec (glossary, "Exclusive reservation"):
`request_mem_region` claims `[start, start+n)` and fails (returns `none`,
i.e. a null pointer) exactly when the range overlaps an existing
reservation. -/
def request_mem_region (st : MemState) (start n : Nat) : Option MemState :=
  if st.reserved.any (fun r => rangesOverlap r.1 r.2 start n) then
    none
  else
    some { st with reserved := (start, n) :: st.reserved }

/-- Modelled from the spec: `release_mem_region` gives up the reservation
recorded for the `(start, n)` pair. -/
def release_mem_region (st : MemState) (start n : Nat) : MemState :=
  { st with reserved := st.reserved.erase (start, n) }

/-- Record a successful `ioremap` of virtual base address `addr`. -/
def ioremapSt (st : MemState) (addr : Nat) : MemState :=
  { st with mapped := addr :: st.mapped }

/-- Modelled from the spec: `iounmap` removes the virtual mapping at `addr`. -/
def iounmapSt (st : MemState) (addr : Nat) : MemState :=
  { st with mapped := st.mapped.erase addr }

/-- Modelled from the spec: the nondeterministic choices the kernel makes
during a mapping attempt. `ioremapAddr start n` is the virtual address
`ioremap` returns, or `none` when mapping fails (out of memory);
`devresOk` is whether the device framework accepts the `Devres::new`
registration (`devres.rs` is not part of the verified tree; per the spec it
fails only when the framework cannot accept the registration, modelled as
the allocation-failure error, out of memory). -/
structure KernelEnv where
  ioremapAddr : Nat → Nat → Option Nat
  devresOk : Bool

/-- One call into a kernel primitive, in program order. -/
inductive KernelEvent
  | requestRegion : Nat → Nat → KernelEvent
  | releaseRegion : Nat → Nat → KernelEvent
  | remap : Nat → Nat → KernelEvent
  | unmap : Nat → KernelEvent
  | devresRegister : KernelEvent
  deriving DecidableEq, Repr

/-- True for the events that touch the physical reservation state. -/
def KernelEvent.isRegionOp : KernelEvent → Bool
  | .requestRegion _ _ => true
  | .releaseRegion _ _ => true
  | _ => false

/-- Modelled from the spec: `IoRaw` (`rust/kernel/io.rs`, not part of the
verified tree) holds the virtual base address and the mapped length of an
I/O region; `IoMem::new` constructs it from the `ioremap` result and the
resource size. -/
structure IoRaw where
  addr : Nat
  maxsize : Nat
  deriving DecidableEq, Repr

/-- Constructor of `IoRaw`; modelled from the spec, which gives the
`IoMem` constructor no failure mode besides zero size, busy reservation,
failed mapping and failed `Devres` registration. -/
def IoRaw.new (addr maxsize : Nat) : IoRaw :=
  { addr := addr, maxsize := maxsize }

/-- A generic memory-mapped I/O region (`rust/kernel/io/mem.rs`): an `IoRaw`
plus the original physical base `res_start`, parameterised by the
compile-time size `SIZE` (0 meaning runtime-checked) and the `EXCLUSIVE`
reservation policy. -/
structure IoMem (SIZE : Nat) (EXCLUSIVE : Bool) where
  io : IoRaw
  res_start : Nat
  deriving DecidableEq, Repr

/-- Destructor of `IoMem` (`rust/kernel/io/mem.rs`, `impl Drop`): if
`EXCLUSIVE`, call `release_mem_region(res_start, io.maxsize())`; then call
`iounmap(io.addr())`. Returns the new kernel state and the calls made, in
order. -/
def IoMem.drop {SIZE : Nat} {EXCLUSIVE : Bool} (m : IoMem SIZE EXCLUSIVE)
    (st : MemState) : MemState × List KernelEvent :=
  if EXCLUSIVE then
    (iounmapSt (release_mem_region st m.res_start m.io.maxsize) m.io.addr,
      [.releaseRegion m.res_start m.io.maxsize, .unmap m.io.addr])
  else
    (iounmapSt st m.io.addr, [.unmap m.io.addr])

/-- Constructor of `IoMem` (`rust/kernel/io/mem.rs`, `IoMem::new`):
reject zero-size resources with `EINVAL`; if `EXCLUSIVE`, call
`request_mem_region` and fail with `EBUSY` when it returns null; call
`ioremap` and on failure release the reservation (if `EXCLUSIVE`) and fail
with `ENOMEM`; build the `IoRaw`/`IoMem` values and register them with
`Devres::new`, whose failure drops the fresh `IoMem` (running
`IoMem::drop`) before the error propagates. Returns the result, the new
kernel state and the calls made, in order. -/
def IoMem.new (SIZE : Nat) (EXCLUSIVE : Bool) (resource : Resource)
    (env : KernelEnv) (st : MemState) :
    Except Errno (IoMem SIZE EXCLUSIVE) × MemState × List KernelEvent :=
  let size := resource.size
  if size = 0 then
    (.error .EINVAL, st, [])
  else
    let res_start := resource.start
    let afterReq : Option MemState × List KernelEvent :=
      if EXCLUSIVE then
        (request_mem_region st res_start size, [.requestRegion res_start size])
      else
        (some st, [])
    match afterReq with
    | (none, tr) => (.error .EBUSY, st, tr)
    | (some st1, tr) =>
      match env.ioremapAddr res_start size with
      | none =>
        if EXCLUSIVE then
          (.error .ENOMEM, release_mem_region st1 res_start size,
            tr ++ [.remap res_start size, .releaseRegion res_start size])
        else
          (.error .ENOMEM, st1, tr ++ [.remap res_start size])
      | some addr =>
        let st2 := ioremapSt st1 addr
        let io := IoRaw.new addr size
        let m : IoMem SIZE EXCLUSIVE := { io := io, res_start := res_start }
        if env.devresOk then
          (.ok m, st2, tr ++ [.remap res_start size, .devresRegister])
        else
          let d := IoMem.drop m st2
          (.error .ENOMEM, d.1, tr ++ [.remap res_start size, .devresRegister] ++ d.2)

namespace Platform

/-- Maps a platform resource where the size is known at compile time
(`rust/kernel/platform.rs`, `Device::ioremap_resource_sized`): delegates to
`IoMem::new`. -/
def Device.ioremap_resource_sized (SIZE : Nat) (EXCLUSIVE : Bool)
    (resource : Resource) (env : KernelEnv) (st : MemState) :
    Except Errno (IoMem SIZE EXCLUSIVE) × MemState × List KernelEvent :=
  IoMem.new SIZE EXCLUSIVE resource env st

/-- Maps a platform resource with runtime-checked size
(`rust/kernel/platform.rs`, `Device::ioremap_resource`): delegates to
`ioremap_resource_sized::<0, EXCLUSIVE>`. -/
def Device.ioremap_resource (EXCLUSIVE : Bool) (resource : Resource)
    (env : KernelEnv) (st : MemState) :
    Except Errno (IoMem 0 EXCLUSIVE) × MemState × List KernelEvent :=
  Device.ioremap_resource_sized 0 EXCLUSIVE resource env st

end Platform

/-- Modelled from the spec: `Devres<T>` (`rust/kernel/devres.rs` is not part
of the verified tree) owns one instance of `T` together with the
device-scoped revocation flag; the device framework can revoke the value,
after which every `try_access` reports unavailable. -/
structure Devres (T : Type) where
  value : T
  revoked : Bool
  deriving DecidableEq, Repr

/-- Modelled from the spec: `Devres::try_access` returns a usable reference
if the device has not yet revoked the resource, unavailable (`none`)
otherwise. -/
def Devres.try_access {T : Type} (d : Devres T) : Option T :=
  if d.revoked then none else some d.value

/-- Modelled from the spec: revocation, invoked by the device framework,
makes all subsequent `try_access` calls return unavailable; it does not
drop `T`. -/
def Devres.revoke {T : Type} (d : Devres T) : Devres T :=
  { d with revoked := true }

/-- The operations on a `Devres<T>` reachable from the public API: a
`try_access` call (from process or interrupt context) and a
framework-driven revocation. There is no operation that un-revokes. -/
inductive DevresOp
  | access
  | revokeOp
  deriving DecidableEq, Repr

/-- Effect of one public-API operation on the `Devres` state (`try_access`
is read-only; `revoke` sets the flag). -/
def Devres.step {T : Type} (d : Devres T) : DevresOp → Devres T
  | .access => d
  | .revokeOp => d.revoke

/-- Effect of a sequence of public-API operations on the `Devres` state. -/
def Devres.run {T : Type} (d : Devres T) (ops : List DevresOp) : Devres T :=
  ops.foldl Devres.step d

/-- Return value of an IRQ handler (`rust/kernel/irq/request.rs`,
`IrqReturn`): `None` means the interrupt was not from this device or was
not handled, `Handled` means it was handled by this device. -/
inductive IrqReturn
  | None
  | Handled
  deriving DecidableEq, Repr

/-- One observable action of driver code: an MMIO register read
(`readl(offset)`), an MMIO register write (`writel(value, offset)`), or a
`dev_info` log line. -/
inductive DriverEvent
  | readl : Nat → DriverEvent
  | writel : Nat → Nat → DriverEvent
  | devInfo : DriverEvent
  deriving DecidableEq, Repr

/-- True for the events that dereference the mapped I/O region. -/
def DriverEvent.isMmio : DriverEvent → Bool
  | .readl _ => true
  | .writel _ _ => true
  | .devInfo => false

namespace Pushbutton

/-- Mapping size of the pushbutton device (`drivers/misc/pushbutton.rs`). -/
def MAPPING_SIZE : Nat := 0x10

/-- Data register offset (`drivers/misc/pushbutton.rs`). -/
def DATA_OFFSET : Nat := 0x0

/-- Interrupt-mask register offset (`drivers/misc/pushbutton.rs`). -/
def INTERRUPT_MASK_OFFSET : Nat := 0x8

/-- Edge-capture register offset (`drivers/misc/pushbutton.rs`). -/
def EDGE_CAPTURE_OFFSET : Nat := 0xC

/-- Button bit mask (`drivers/misc/pushbutton.rs`). -/
def BUTTON_MASK : Nat := 0b1111

/-- The pushbutton IRQ handler (`drivers/misc/pushbutton.rs`,
`IrqHandler::handle_irq`): if `try_access` yields the resource, read the
edge-capture register, log, and write the button mask back to acknowledge;
otherwise only log that the resource is gone. Either way the function
falls through to return `IrqReturn::Handled`. Returns the value and the
actions performed, in order. -/
def IrqHandler.handle_irq (mapping : Devres (IoMem MAPPING_SIZE true)) :
    IrqReturn × List DriverEvent :=
  match mapping.try_access with
  | some _res =>
    (IrqReturn.Handled,
      [.readl EDGE_CAPTURE_OFFSET, .devInfo,
       .writel BUTTON_MASK EDGE_CAPTURE_OFFSET])
  | none => (IrqReturn.Handled, [.devInfo])

/-- Teardown of the pushbutton driver (`drivers/misc/pushbutton.rs`,
`PinnedDrop for PushbuttonDriver`): log, then `try_access().unwrap()` —
which panics when the resource is unavailable — then clear the
interrupt-mask and edge-capture registers. Returns the actions performed
and whether the path panicked. -/
def PushbuttonDriver.drop (mapping : Devres (IoMem MAPPING_SIZE true)) :
    List DriverEvent × Bool :=
  match mapping.try_access with
  | none => ([.devInfo], true)
  | some _res =>
    ([.devInfo, .writel 0 INTERRUPT_MASK_OFFSET, .writel 0 EDGE_CAPTURE_OFFSET],
      false)

/-- The resource accesses in `PushbuttonDriver::probe`
(`drivers/misc/pushbutton.rs` lines 59–61): `try_access().ok_or(ENXIO)?`,
then writes of the button mask to the interrupt-mask and edge-capture
registers. -/
def PushbuttonDriver.probeAccess (mapping : Devres (IoMem MAPPING_SIZE true)) :
    Except Errno Unit × List DriverEvent :=
  match mapping.try_access with
  | none => (.error ENXIO, [])
  | some _res =>
    (.ok (),
      [.writel BUTTON_MASK INTERRUPT_MASK_OFFSET,
       .writel BUTTON_MASK EDGE_CAPTURE_OFFSET])

end Pushbutton

namespace Ledpwm

/-- Mapping size of the ledpwm device (`drivers/misc/ledpwm.rs`). -/
def MAPPING_SIZE : Nat := 0x4

/-- Teardown of the ledpwm driver (`drivers/misc/ledpwm.rs`,
`PinnedDrop for LedPwmDriver`): log, then, only if `try_access` yields the
resource, write `0x00` to offset 0; unavailable is treated as skip. -/
def LedPwmDriver.drop (mapping : Devres (IoMem MAPPING_SIZE true)) :
    List DriverEvent × Bool :=
  match mapping.try_access with
  | some _res => ([.devInfo, .writel 0x00 0x0], false)
  | none => ([.devInfo], false)

/-- The resource access in `LedPwmDriver::probe` (`drivers/misc/ledpwm.rs`
line 52): `try_access().ok_or(ENXIO)?.writel(0xFF, 0x0)`. -/
def LedPwmDriver.probeAccess (mapping : Devres (IoMem MAPPING_SIZE true)) :
    Except Errno Unit × List DriverEvent :=
  match mapping.try_access with
  | none => (.error ENXIO, [])
  | some _res => (.ok (), [.writel 0xFF 0x0])

/-- Device-file open (`drivers/misc/ledpwm.rs`, `RustMiscDevice::open`):
log, then `try_access().ok_or(ENXIO)?` and write `0x80` to offset 0;
unavailable becomes the ordinary error `ENXIO`. -/
def RustMiscDevice.open (mapping : Devres (IoMem MAPPING_SIZE true)) :
    Except Errno Unit × List DriverEvent :=
  match mapping.try_access with
  | none => (.error ENXIO, [.devInfo])
  | some _res => (.ok (), [.devInfo, .writel 0x80 0x0])

/-- Device-file release (`drivers/misc/ledpwm.rs`,
`PinnedDrop for RustMiscDevice`): log, then, only if `try_access` yields
the resource, write `0x10` to offset 0; unavailable is treated as skip. -/
def RustMiscDevice.drop (mapping : Devres (IoMem MAPPING_SIZE true)) :
    List DriverEvent × Bool :=
  match mapping.try_access with
  | some _res => ([.devInfo, .writel 0x10 0x0], false)
  | none => ([.devInfo], false)

end Ledpwm

/-- A kernel environment where every mapping attempt succeeds at virtual
address `0xF000` and the device framework accepts the registration; used
to instantiate theorems at concrete inputs. -/
def envAllOk : KernelEnv :=
  { ioremapAddr := fun _ _ => some 0xF000, devresOk := true }

/-- A kernel environment where `ioremap` fails (out of memory). -/
def envMapFail : KernelEnv :=
  { ioremapAddr := fun _ _ => none, devresOk := true }

/-- A kernel environment where the `Devres` registration fails. -/
def envDevresFail : KernelEnv :=
  { ioremapAddr := fun _ _ => some 0xF000, devresOk := false }

/- Helper lemmas shared by the claim theorems. -/

/-- A request over a range that overlaps an existing reservation fails. -/
theorem request_mem_region_none_of_overlap {st : MemState} {s1 n1 s n : Nat}
    (hmem : (s1, n1) ∈ st.reserved) (hov : rangesOverlap s1 n1 s n = true) :
    request_mem_region st s n = none := by
  unfold request_mem_region
  rw [if_pos]
  rw [List.any_eq_true]
  exact ⟨(s1, n1), hmem, hov⟩

/-- When the range is already reserved, `IoMem::new` with `EXCLUSIVE = true`
fails with `EBUSY`, leaves the state unchanged and only calls
`request_mem_region`. -/
theorem IoMem.new_busy {SIZE : Nat} {r : Resource} {env : KernelEnv}
    {st : MemState} (hs : r.size ≠ 0)
    (hreq : request_mem_region st r.start r.size = none) :
    IoMem.new SIZE true r env st =
      (.error .EBUSY, st, [KernelEvent.requestRegion r.start r.size]) := by
  simp [IoMem.new, hs, hreq]

/-- A successful `IoMem::new` records the resource's start as `res_start`
and its size as the mapped length. -/
theorem IoMem.new_ok_fields {SIZE : Nat} {EXCLUSIVE : Bool} {r : Resource}
    {env : KernelEnv} {st : MemState} {m : IoMem SIZE EXCLUSIVE}
    (h : (IoMem.new SIZE EXCLUSIVE r env st).1 = .ok m) :
    m.res_start = r.start ∧ m.io.maxsize = r.size := by
  by_cases hs : r.size = 0
  · simp [IoMem.new, hs] at h
  · cases EXCLUSIVE with
    | true =>
      cases hreq : request_mem_region st r.start r.size with
      | none => simp [IoMem.new, hs, hreq] at h
      | some st1 =>
        cases hmap : env.ioremapAddr r.start r.size with
        | none => simp [IoMem.new, hs, hreq, hmap] at h
        | some addr =>
          cases hdev : env.devresOk with
          | false => simp [IoMem.new, hs, hreq, hmap, hdev] at h
          | true =>
            simp [IoMem.new, hs, hreq, hmap, hdev, IoRaw.new] at h
            subst h
            exact ⟨rfl, rfl⟩
    | false =>
      cases hmap : env.ioremapAddr r.start r.size with
      | none => simp [IoMem.new, hs, hmap] at h
      | some addr =>
        cases hdev : env.devresOk with
        | false => simp [IoMem.new, hs, hmap, hdev] at h
        | true =>
          simp [IoMem.new, hs, hmap, hdev, IoRaw.new] at h
          subst h
          exact ⟨rfl, rfl⟩

/-- A successful exclusive `IoMem::new` leaves the resource's range at the
head of the reservation list. -/
theorem IoMem.new_ok_reserved {SIZE : Nat} {r : Resource} {env : KernelEnv}
    {st : MemState} {m : IoMem SIZE true}
    (h : (IoMem.new SIZE true r env st).1 = .ok m) :
    (IoMem.new SIZE true r env st).2.1.reserved =
      (r.start, r.size) :: st.reserved := by
  by_cases hs : r.size = 0
  · simp [IoMem.new, hs] at h
  · cases hreq : request_mem_region st r.start r.size with
    | none => simp [IoMem.new, hs, hreq] at h
    | some st1 =>
      have hst1 : st1 = { st with reserved := (r.start, r.size) :: st.reserved } := by
        unfold request_mem_region at hreq
        split at hreq
        · exact absurd hreq (by simp)
        · exact (Option.some.inj hreq).symm
      cases hmap : env.ioremapAddr r.start r.size with
      | none => simp [IoMem.new, hs, hreq, hmap] at h
      | some addr =>
        cases hdev : env.devresOk with
        | false => simp [IoMem.new, hs, hreq, hmap, hdev] at h
        | true =>
          simp [IoMem.new, hs, hreq, hmap, hdev, ioremapSt, hst1]

/-- Running any sequence of public-API operations on a revoked `Devres`
leaves it revoked. -/
theorem Devres.run_revoked {T : Type} (d : Devres T) (ops : List DevresOp)
    (hd : d.revoked = true) : (Devres.run d ops).revoked = true := by
  induction ops generalizing d with
  | nil => exact hd
  | cons op rest ih =>
    cases op with
    | access => exact ih d hd
    | revokeOp => exact ih d.revoke rfl

/-- C4: for every resource whose `size()` is 0 and every device,
`IoMem::new` (for any `SIZE` and `EXCLUSIVE` parameters) returns the
invalid-argument error `EINVAL`, leaves the kernel state unchanged and
performs no reservation or mapping call. -/
theorem c4_zero_size_einval (SIZE : Nat) (EXCLUSIVE : Bool) (r : Resource)
    (env : KernelEnv) (st : MemState) (h : r.size = 0) :
    IoMem.new SIZE EXCLUSIVE r env st = (.error .EINVAL, st, []) := by
  simp [IoMem.new, h]

/-- Witness for C4 at the concrete zero-size resource `(0x1000, 0)`. -/
theorem c4_zero_size_einval_witness :
    IoMem.new 4 true ⟨0x1000, 0, "led"⟩ envAllOk ⟨[], []⟩ =
      (.error .EINVAL, ⟨[], []⟩, []) :=
  c4_zero_size_einval 4 true ⟨0x1000, 0, "led"⟩ envAllOk ⟨[], []⟩ rfl

/-- C9: for every resource and every `EXCLUSIVE` parameter,
`platform::Device::ioremap_resource::<EXCLUSIVE>` returns exactly the same
result (value, kernel state and calls) as
`platform::Device::ioremap_resource_sized::<0, EXCLUSIVE>`: the
runtime-checked entry point is the `SIZE = 0` instance of the
compile-time-sized one. -/
theorem c9_ioremap_resource_is_sized_zero (EXCLUSIVE : Bool) (r : Resource)
    (env : KernelEnv) (st : MemState) :
    Platform.Device.ioremap_resource EXCLUSIVE r env st =
      Platform.Device.ioremap_resource_sized 0 EXCLUSIVE r env st := rfl

/-- C5 (counterexample): at a concrete exclusive `IoMem` the destructor's
call sequence is not unmap-then-release, contradicting the claim that it
first unmaps the virtual range and then releases the reservation. -/
theorem c5_counterexample :
    ((⟨⟨0xF000, 4⟩, 0x1000⟩ : IoMem 4 true).drop ⟨[(0x1000, 4)], [0xF000]⟩).2 ≠
      [KernelEvent.unmap 0xF000, KernelEvent.releaseRegion 0x1000 4] := by
  decide

/-- C5 (amended): when an `IoMem<SIZE, EXCLUSIVE>` obtained from a
successful `IoMem::new` is destroyed, the destructor with `EXCLUSIVE =
true` first releases the physical reservation — using the same start/size
pair used at acquisition — and then unmaps the virtual range; for
`EXCLUSIVE = false` no reservation is released and only the unmap call is
made. -/
theorem c5_drop_releases_then_unmaps {SIZE : Nat} (r : Resource)
    (env : KernelEnv) (st0 st : MemState) (m : IoMem SIZE true)
    (hok : (IoMem.new SIZE true r env st0).1 = .ok m) (m2 : IoMem SIZE false) :
    m.drop st =
      (iounmapSt (release_mem_region st r.start r.size) m.io.addr,
        [KernelEvent.releaseRegion r.start r.size, KernelEvent.unmap m.io.addr]) ∧
    m2.drop st = (iounmapSt st m2.io.addr, [KernelEvent.unmap m2.io.addr]) := by
  obtain ⟨hstart, hsize⟩ := IoMem.new_ok_fields hok
  constructor
  · simp [IoMem.drop, hstart, hsize]
  · simp [IoMem.drop]

/-- Witness for C5 (amended) at a concrete resource and environment. -/
theorem c5_drop_releases_then_unmaps_witness :
    ((⟨⟨0xF000, 4⟩, 0x1000⟩ : IoMem 4 true).drop ⟨[(0x1000, 4)], [0xF000, 0xE000]⟩ =
      (⟨[], [0xE000]⟩,
        [KernelEvent.releaseRegion 0x1000 4, KernelEvent.unmap 0xF000])) ∧
    ((⟨⟨0xE000, 4⟩, 0x2000⟩ : IoMem 4 false).drop ⟨[(0x1000, 4)], [0xF000, 0xE000]⟩ =
      (⟨[(0x1000, 4)], [0xF000]⟩, [KernelEvent.unmap 0xE000])) := by
  have h := c5_drop_releases_then_unmaps ⟨0x1000, 4, "led"⟩ envAllOk ⟨[], []⟩
    ⟨[(0x1000, 4)], [0xF000, 0xE000]⟩ (⟨⟨0xF000, 4⟩, 0x1000⟩ : IoMem 4 true) rfl
    (⟨⟨0xE000, 4⟩, 0x2000⟩ : IoMem 4 false)
  exact ⟨h.1, h.2⟩

/-- C7 (counterexample): at a concrete revoked mapping the pushbutton IRQ
handler returns `Handled`, contradicting the claim that a handler finding
its resource revoked returns not-handled (`None`). -/
theorem c7_counterexample :
    ¬ (Pushbutton.IrqHandler.handle_irq ⟨⟨⟨0xF000, 16⟩, 0x1000⟩, true⟩).1 =
      IrqReturn.None := by
  decide

/-- C7 (amended): the pushbutton IRQ handler returns `Handled` on every
firing, whether or not the resource is available; when `try_access`
reports unavailable it only logs and touches no register, and otherwise it
reads the edge-capture register, logs, and writes the button mask back. -/
theorem c7_handler_always_handled
    (d : Devres (IoMem Pushbutton.MAPPING_SIZE true)) :
    (Pushbutton.IrqHandler.handle_irq d).1 = IrqReturn.Handled ∧
    (Pushbutton.IrqHandler.handle_irq d).2 =
      (if d.revoked then [DriverEvent.devInfo]
       else
         [DriverEvent.readl Pushbutton.EDGE_CAPTURE_OFFSET, DriverEvent.devInfo,
          DriverEvent.writel Pushbutton.BUTTON_MASK
            Pushbutton.EDGE_CAPTURE_OFFSET]) := by
  obtain ⟨v, rv⟩ := d
  cases rv <;>
    simp [Pushbutton.IrqHandler.handle_irq, Devres.try_access]

/-- C6 (counterexample): at a concrete revoked mapping the pushbutton
driver's teardown panics (it calls `try_access().unwrap()`), contradicting
the claim that no caller reachable from the public API propagates an
unavailable result as a panic. -/
theorem c6_counterexample :
    (Pushbutton.PushbuttonDriver.drop ⟨⟨⟨0xF000, 16⟩, 0x1000⟩, true⟩).2 = true := by
  decide

/-- C6 (amended): every modelled caller of `try_access` reachable from the
public API except `PushbuttonDriver::drop` treats unavailable as "skip
this operation" or as the ordinary error `ENXIO` (both probe accesses and
the device-file open return `ENXIO`; the ledpwm driver teardown and the
device-file release skip their write; the IRQ handler skips hardware
access and still returns); `PushbuttonDriver::drop` instead unwraps the
result and panics exactly when the resource has been revoked. -/
theorem c6_unavailable_handling
    (dp : Devres (IoMem Pushbutton.MAPPING_SIZE true))
    (dl : Devres (IoMem Ledpwm.MAPPING_SIZE true)) :
    (Pushbutton.PushbuttonDriver.drop dp).2 = dp.revoked ∧
    (Pushbutton.PushbuttonDriver.probeAccess dp).1 =
      (if dp.revoked then .error ENXIO else .ok ()) ∧
    (Pushbutton.IrqHandler.handle_irq dp).1 = IrqReturn.Handled ∧
    (Ledpwm.LedPwmDriver.drop dl).2 = false ∧
    (Ledpwm.LedPwmDriver.probeAccess dl).1 =
      (if dl.revoked then .error ENXIO else .ok ()) ∧
    (Ledpwm.RustMiscDevice.open dl).1 =
      (if dl.revoked then .error ENXIO else .ok ()) ∧
    (Ledpwm.RustMiscDevice.drop dl).2 = false := by
  obtain ⟨vp, rp⟩ := dp
  obtain ⟨vl, rl⟩ := dl
  cases rp <;> cases rl <;>
    simp [Pushbutton.PushbuttonDriver.drop, Pushbutton.PushbuttonDriver.probeAccess,
      Pushbutton.IrqHandler.handle_irq, Ledpwm.LedPwmDriver.drop,
      Ledpwm.LedPwmDriver.probeAccess, Ledpwm.RustMiscDevice.open,
      Ledpwm.RustMiscDevice.drop, Devres.try_access]

/-- C1: once a `Devres<T>` is revoked, every subsequent `try_access` call —
after any sequence of public-API operations, from any context — returns
unavailable (`none`); and the modelled interrupt-handler code path, which
obtains its reference freshly through `try_access` on each invocation,
dereferences the mapped region in no way once the resource is revoked. -/
theorem c1_no_access_after_revoke {T : Type} (d : Devres T)
    (ops : List DevresOp) (hd : d.revoked = true)
    (m : Devres (IoMem Pushbutton.MAPPING_SIZE true)) (hm : m.revoked = true) :
    (Devres.run d ops).try_access = none ∧
    ((Pushbutton.IrqHandler.handle_irq m).2.all fun e => !e.isMmio) = true := by
  constructor
  · simp [Devres.try_access, Devres.run_revoked d ops hd]
  · simp [Pushbutton.IrqHandler.handle_irq, Devres.try_access, hm,
      DriverEvent.isMmio]

/-- Witness for C1 at a concrete revoked container and operation list. -/
theorem c1_no_access_after_revoke_witness :
    (Devres.run (⟨7, true⟩ : Devres Nat)
        [DevresOp.access, DevresOp.revokeOp, DevresOp.access]).try_access =
      none ∧
    ((Pushbutton.IrqHandler.handle_irq
        ⟨⟨⟨0xF000, 16⟩, 0x1000⟩, true⟩).2.all fun e => !e.isMmio) = true :=
  c1_no_access_after_revoke (⟨7, true⟩ : Devres Nat)
    [DevresOp.access, DevresOp.revokeOp, DevresOp.access] rfl
    ⟨⟨⟨0xF000, 16⟩, 0x1000⟩, true⟩ rfl

/-- C2: if exclusive `IoMem::new` succeeds in reserving the physical range
but `ioremap` fails, then the reservation is released before returning and
the call returns `ENOMEM` with the kernel state exactly as before the
call (no side effect persists), the calls made being request, mapping
attempt, release in that order; consequently a later attempt over the same
range, in an environment whose mapping and registration succeed, returns a
mapped `IoMem`. -/
theorem c2_enomem_rollback (SIZE : Nat) (r : Resource) (env : KernelEnv)
    (st st1 : MemState) (hs : r.size ≠ 0)
    (hreq : request_mem_region st r.start r.size = some st1)
    (hmap : env.ioremapAddr r.start r.size = none) :
    IoMem.new SIZE true r env st =
      (.error .ENOMEM, st,
        [KernelEvent.requestRegion r.start r.size,
         KernelEvent.remap r.start r.size,
         KernelEvent.releaseRegion r.start r.size]) ∧
    ∀ (S2 : Nat) (env2 : KernelEnv) (a : Nat),
      env2.ioremapAddr r.start r.size = some a → env2.devresOk = true →
      (IoMem.new S2 true r env2 ((IoMem.new SIZE true r env st).2.1)).1 =
        .ok ⟨⟨a, r.size⟩, r.start⟩ := by
  have hst1 : st1 = { st with reserved := (r.start, r.size) :: st.reserved } := by
    unfold request_mem_region at hreq
    split at hreq
    · exact absurd hreq (by simp)
    · exact (Option.some.inj hreq).symm
  have hrel : release_mem_region st1 r.start r.size = st := by
    subst hst1
    simp [release_mem_region]
  have h1 : IoMem.new SIZE true r env st =
      (.error .ENOMEM, st,
        [KernelEvent.requestRegion r.start r.size,
         KernelEvent.remap r.start r.size,
         KernelEvent.releaseRegion r.start r.size]) := by
    simp [IoMem.new, hs, hreq, hmap, hrel]
  refine ⟨h1, ?_⟩
  intro S2 env2 a hmap2 hdev2
  rw [h1]
  simp [IoMem.new, hs, hreq, hmap2, hdev2, IoRaw.new]

/-- Witness for C2: over an empty reservation state the failed attempt
rolls back completely and the retry over the same range succeeds. -/
theorem c2_enomem_rollback_witness :
    IoMem.new 4 true ⟨0x1000, 4, "led"⟩ envMapFail ⟨[], []⟩ =
      (.error .ENOMEM, ⟨[], []⟩,
        [KernelEvent.requestRegion 0x1000 4, KernelEvent.remap 0x1000 4,
         KernelEvent.releaseRegion 0x1000 4]) ∧
    (IoMem.new 4 true ⟨0x1000, 4, "led"⟩ envAllOk
        ((IoMem.new 4 true ⟨0x1000, 4, "led"⟩ envMapFail ⟨[], []⟩).2.1)).1 =
      .ok ⟨⟨0xF000, 4⟩, 0x1000⟩ := by
  have h := c2_enomem_rollback 4 ⟨0x1000, 4, "led"⟩ envMapFail ⟨[], []⟩
    ⟨[(0x1000, 4)], []⟩ (by decide) rfl rfl
  exact ⟨h.1, h.2 4 envAllOk 0xF000 rfl rfl⟩

/-- C3: for two sequential exclusive mapping attempts over overlapping
physical ranges, if the first succeeds the second cannot succeed; and
whenever the requested range overlaps a range already reserved in the
kernel state (and the resource size is nonzero, so the reservation step is
reached), exclusive `IoMem::new` returns `EBUSY`, leaves the state
unchanged and performs no mapping call. -/
theorem c3_exclusive_mutual_exclusion (S1 S2 : Nat) (r1 r2 : Resource)
    (env1 env2 : KernelEnv) (st0 : MemState)
    (hov : rangesOverlap r1.start r1.size r2.start r2.size = true) :
    (∀ m1 : IoMem S1 true, (IoMem.new S1 true r1 env1 st0).1 = .ok m1 →
      ∀ m2 : IoMem S2 true,
        (IoMem.new S2 true r2 env2
          ((IoMem.new S1 true r1 env1 st0).2.1)).1 ≠ .ok m2) ∧
    (∀ st : MemState, r2.size ≠ 0 →
      (∃ p ∈ st.reserved, rangesOverlap p.1 p.2 r2.start r2.size = true) →
      IoMem.new S2 true r2 env2 st =
        (.error .EBUSY, st, [KernelEvent.requestRegion r2.start r2.size])) := by
  constructor
  · intro m1 h1 m2
    have hres := IoMem.new_ok_reserved h1
    by_cases hs2 : r2.size = 0
    · simp [IoMem.new, hs2]
    · have hmem : (r1.start, r1.size) ∈
          ((IoMem.new S1 true r1 env1 st0).2.1).reserved := by
        rw [hres]
        exact List.mem_cons_self _ _
      have hreq := request_mem_region_none_of_overlap hmem hov
      rw [IoMem.new_busy hs2 hreq]
      simp
  · intro st hs2 hex
    obtain ⟨p, hp, hpov⟩ := hex
    exact IoMem.new_busy hs2 (request_mem_region_none_of_overlap hp hpov)

/-- Witness for C3 at the overlapping ranges `[0x1000, 0x1008)` and
`[0x1004, 0x100C)`. -/
theorem c3_exclusive_mutual_exclusion_witness :
    ((IoMem.new 8 true ⟨0x1004, 8, "b"⟩ envAllOk
        ((IoMem.new 8 true ⟨0x1000, 8, "a"⟩ envAllOk ⟨[], []⟩).2.1)).1 ≠
      .ok ⟨⟨0xF000, 8⟩, 0x1004⟩) ∧
    IoMem.new 8 true ⟨0x1004, 8, "b"⟩ envAllOk ⟨[(0x1000, 8)], []⟩ =
      (.error .EBUSY, ⟨[(0x1000, 8)], []⟩,
        [KernelEvent.requestRegion 0x1004 8]) := by
  have h := c3_exclusive_mutual_exclusion 8 8 ⟨0x1000, 8, "a"⟩ ⟨0x1004, 8, "b"⟩
    envAllOk envAllOk ⟨[], []⟩ (by decide)
  refine ⟨h.1 (⟨⟨0xF000, 8⟩, 0x1000⟩ : IoMem 8 true) rfl
    (⟨⟨0xF000, 8⟩, 0x1004⟩ : IoMem 8 true), ?_⟩
  exact h.2 ⟨[(0x1000, 8)], []⟩ (by decide) ⟨(0x1000, 8), by simp, by decide⟩

/-- C10: with `EXCLUSIVE = false`, `IoMem::new` makes no reservation call
and leaves the reservation state untouched, never returns `EBUSY`, and
either succeeds or fails exactly with `EINVAL` on a zero-size resource or
with `ENOMEM` when the mapping or the `Devres` registration fails; and
`IoMem::drop` only unmaps the virtual range, releasing no reservation. -/
theorem c10_shared_frame (SIZE : Nat) (r : Resource) (env : KernelEnv)
    (st : MemState) (m : IoMem SIZE false) :
    ((IoMem.new SIZE false r env st).2.2.all fun e => !e.isRegionOp) = true ∧
    (IoMem.new SIZE false r env st).2.1.reserved = st.reserved ∧
    (IoMem.new SIZE false r env st).1 ≠ .error .EBUSY ∧
    ((∃ m0, (IoMem.new SIZE false r env st).1 = .ok m0) ∨
      ((IoMem.new SIZE false r env st).1 = .error .EINVAL ∧ r.size = 0) ∨
      ((IoMem.new SIZE false r env st).1 = .error .ENOMEM ∧
        (env.ioremapAddr r.start r.size = none ∨ env.devresOk = false))) ∧
    m.drop st = (iounmapSt st m.io.addr, [KernelEvent.unmap m.io.addr]) := by
  by_cases hs : r.size = 0
  · simp [IoMem.new, hs, IoMem.drop]
  · cases hmap : env.ioremapAddr r.start r.size with
    | none =>
      simp [IoMem.new, hs, hmap, IoMem.drop, KernelEvent.isRegionOp]
    | some addr =>
      cases hdev : env.devresOk with
      | true =>
        simp [IoMem.new, hs, hmap, hdev, IoMem.drop, KernelEvent.isRegionOp,
          ioremapSt, iounmapSt]
      | false =>
        simp [IoMem.new, hs, hmap, hdev, IoMem.drop, KernelEvent.isRegionOp,
          ioremapSt, iounmapSt]
